import Mathlib

/-!
Verification development for the Rockchip USB2 PHY (Innosilicon IP) driver
(`drivers/phy/rockchip/phy-rockchip-inno-usb2.c`).

The driver's data model (bitfield descriptors, per-port configs, per-chip
config tables) and its operations (`property_enable`, `property_enabled`,
the probe-time config lookup, init/exit/power_on/power_off, of_xlate, and
the clock sub-device operations) are embedded shallowly below.  Machine
integers are `Nat` with explicit `% 2 ^ 32` where C truncates to
`unsigned int`.  The memory-mapped register block is a function from
register offset to 32-bit value; the store semantics of the GRF register
block (upper 16 bits of a stored word act as a per-bit write-enable mask
for the low 16 bits) is modelled from the spec, since `writel` and the
hardware are outside the driver source.
-/

/-- `struct usb2phy_reg`: one bitfield descriptor — register offset,
bit range `[bitstart, bitend]`, and the disabled/enabled encodings. -/
structure usb2phy_reg where
  offset : Nat
  bitend : Nat
  bitstart : Nat
  disable : Nat
  enable : Nat
  deriving DecidableEq, Repr

/-- The all-zero bitfield descriptor, i.e. a field left unset ("absent")
by a chip table's designated initializers. -/
def zero_reg : usb2phy_reg := ⟨0, 0, 0, 0, 0⟩

/-- `struct rockchip_usb2phy_port_cfg`: the bitfields of one port.
Fields not mentioned in a table literal default to all-zero, as C
designated initializers zero-fill unnamed members. -/
structure rockchip_usb2phy_port_cfg where
  phy_sus : usb2phy_reg := zero_reg
  bvalid_det_en : usb2phy_reg := zero_reg
  bvalid_det_st : usb2phy_reg := zero_reg
  bvalid_det_clr : usb2phy_reg := zero_reg
  ls_det_en : usb2phy_reg := zero_reg
  ls_det_st : usb2phy_reg := zero_reg
  ls_det_clr : usb2phy_reg := zero_reg
  utmi_avalid : usb2phy_reg := zero_reg
  utmi_bvalid : usb2phy_reg := zero_reg
  utmi_ls : usb2phy_reg := zero_reg
  utmi_hstdet : usb2phy_reg := zero_reg
  deriving DecidableEq, Repr

/-- The all-zero port config (an unnamed `port_cfgs` array slot). -/
def zero_port_cfg : rockchip_usb2phy_port_cfg := {}

/-- `enum rockchip_usb2phy_port_id`: `USB2PHY_PORT_OTG = 0`. -/
def USB2PHY_PORT_OTG : Nat := 0

/-- `enum rockchip_usb2phy_port_id`: `USB2PHY_PORT_HOST = 1`. -/
def USB2PHY_PORT_HOST : Nat := 1

/-- `struct rockchip_usb2phy_cfg`: one chip-config table entry — the
matching register base `reg`, the clock-output-enable bitfield, and the
two per-port configs (`port_cfgs[USB2PHY_PORT_OTG]` and
`port_cfgs[USB2PHY_PORT_HOST]`). -/
structure rockchip_usb2phy_cfg where
  reg : Nat
  clkout_ctl : usb2phy_reg := zero_reg
  port_otg : rockchip_usb2phy_port_cfg := zero_port_cfg
  port_host : rockchip_usb2phy_port_cfg := zero_port_cfg
  deriving DecidableEq, Repr

/-- The `{ /* sentinel */ }` all-zero terminating entry of each table. -/
def sentinel_cfg : rockchip_usb2phy_cfg := { reg := 0 }

/-- `us2phy_get_port`: `&phy_cfg->port_cfgs[phy->id]`, for the two valid
port ids. -/
def us2phy_get_port (cfg : rockchip_usb2phy_cfg) (id : Nat) :
    rockchip_usb2phy_port_cfg :=
  if id = USB2PHY_PORT_HOST then cfg.port_host else cfg.port_otg

/-- The 32-bit register block: a map from register offset to the 32-bit
word currently latched at that offset. -/
def RegFile : Type := Nat → Nat

/-- The all-zero register block, used as a concrete reset state. -/
def zeroRegs : RegFile := fun _ => 0

/-- `GENMASK(h, l)` as defined for 64-bit longs:
`((~0UL) << l) & (~0UL >> (63 - h))`. -/
def GENMASK (h l : Nat) : Nat :=
  ((2 ^ 64 - 1) <<< l) &&& ((2 ^ 64 - 1) >>> (63 - h))

/-- Modelled from the spec: the store semantics of the GRF register block
targeted by `writel`.  The upper 16 bits of the stored word are a per-bit
write-enable mask selecting which of the low 16 bits of the register take
the stored value; register bits 16..31 are not written by a store. -/
def writel_grf (old v : Nat) : Nat :=
  (old &&& ((2 ^ 32 - 1) ^^^ ((v >>> 16) &&& (2 ^ 16 - 1)))) |||
    (v &&& ((v >>> 16) &&& (2 ^ 16 - 1)))

/-- The word stored by `property_enable`:
`val = (tmp << bitstart) | (mask << BIT_WRITEABLE_SHIFT)` computed in
`unsigned int` arithmetic, where `tmp` is the chosen encoding and
`mask = GENMASK(bitend, bitstart)` truncated to 32 bits. -/
def property_enable_val (r : usb2phy_reg) (en : Bool) : Nat :=
  (((if en then r.enable else r.disable) <<< r.bitstart) % 2 ^ 32) |||
    (((GENMASK r.bitend r.bitstart % 2 ^ 32) <<< 16) % 2 ^ 32)

/-- `property_enable(reg_base, reg, en)`: a single 32-bit store of
`property_enable_val` to `base + reg->offset`. -/
def property_enable (s : RegFile) (r : usb2phy_reg) (en : Bool) : RegFile :=
  fun o => if o = r.offset then writel_grf (s r.offset) (property_enable_val r en)
           else s o

/-- `property_enabled(reg_base, reg)`: load the register, extract
`(orig & mask) >> bitstart`, and report whether it differs from the
disabled encoding. -/
def property_enabled (s : RegFile) (r : usb2phy_reg) : Bool :=
  decide (((s r.offset &&& (GENMASK r.bitend r.bitstart % 2 ^ 32)) >>>
    r.bitstart) ≠ r.disable)

/-- The raw field value extracted by the read path of `property_enabled`:
`(orig & mask) >> bitstart`. -/
def field_value (s : RegFile) (r : usb2phy_reg) : Nat :=
  (s r.offset &&& (GENMASK r.bitend r.bitstart % 2 ^ 32)) >>> r.bitstart

/-- `ENOSYS` (errno 38): `clk_enable` may return `-ENOSYS`, which
`rockchip_usb2phy_init` treats as success. -/
def ENOSYS : Int := 38

/-- `rockchip_usb2phy_power_on`: clear the suspend bitfield
(`property_enable(.., &phy_sus, false)`), wait for utmi_clk, return 0. -/
def rockchip_usb2phy_power_on (s : RegFile)
    (port_cfg : rockchip_usb2phy_port_cfg) : Int × RegFile :=
  (0, property_enable s port_cfg.phy_sus false)

/-- `rockchip_usb2phy_power_off`: set the suspend bitfield
(`property_enable(.., &phy_sus, true)`), return 0. -/
def rockchip_usb2phy_power_off (s : RegFile)
    (port_cfg : rockchip_usb2phy_port_cfg) : Int × RegFile :=
  (0, property_enable s port_cfg.phy_sus true)

/-- `rockchip_usb2phy_init` as (return value, list of bitfield writes
performed): fail with `clk_enable`'s result when it is neither 0 nor
`-ENOSYS` (performing no writes); otherwise write `bvalid_det_clr` then
`bvalid_det_en` — by the same two lines for either valid port id. -/
def rockchip_usb2phy_init (clk_enable_ret : Int) (id : Nat)
    (port_cfg : rockchip_usb2phy_port_cfg) :
    Int × List (usb2phy_reg × Bool) :=
  if clk_enable_ret ≠ 0 ∧ clk_enable_ret ≠ -ENOSYS then (clk_enable_ret, [])
  else if id = USB2PHY_PORT_OTG then
    (0, [(port_cfg.bvalid_det_clr, true), (port_cfg.bvalid_det_en, true)])
  else if id = USB2PHY_PORT_HOST then
    (0, [(port_cfg.bvalid_det_clr, true), (port_cfg.bvalid_det_en, true)])
  else (0, [])

/-- `rockchip_usb2phy_exit`: call `clk_disable` and discard its result;
always return 0. -/
def rockchip_usb2phy_exit (clk_disable_ret : Int) : Int :=
  0

/-- `tolower` on a character, as C's `strcasecmp` applies it per byte. -/
def tolower (c : Char) : Char :=
  if 'A' ≤ c ∧ c ≤ 'Z' then Char.ofNat (c.toNat + 32) else c

/-- `!strcasecmp(a, b)`: equality of the two strings after lowercasing
every character. -/
def strcasecmp_eq (a b : String) : Bool :=
  a.data.map tolower == b.data.map tolower

/-- `rockchip_usb2phy_of_xlate` as (return value, resulting `phy->id`,
whether the `dev_err` branch for an unrecognized name was taken): the
device name is matched case-insensitively against `"host-port"` and
`"otg-port"`; an unrecognized name only logs and leaves `phy->id` at its
prior (zero-initialized) value; the return value is always 0. -/
def rockchip_usb2phy_of_xlate (id : Nat) (name : String) :
    Int × Nat × Bool :=
  if strcasecmp_eq name "host-port" then (0, USB2PHY_PORT_HOST, false)
  else if strcasecmp_eq name "otg-port" then (0, USB2PHY_PORT_OTG, false)
  else (0, id, true)

/-- `rockchip_usb2phy_clk_round_rate`: always 480000000. -/
def rockchip_usb2phy_clk_round_rate (rate : Nat) : Nat :=
  480000000

/-- Bitfield writes performed by `rockchip_usb2phy_clk_enable`: write the
clock-output-enable field only when `property_enabled` reports it off. -/
def rockchip_usb2phy_clk_enable_writes (s : RegFile)
    (phy_cfg : rockchip_usb2phy_cfg) : List (usb2phy_reg × Bool) :=
  if property_enabled s phy_cfg.clkout_ctl then []
  else [(phy_cfg.clkout_ctl, true)]

/-- Bitfield writes performed by `rockchip_usb2phy_clk_disable`:
unconditionally write the clock-output-enable field off. -/
def rockchip_usb2phy_clk_disable_writes (phy_cfg : rockchip_usb2phy_cfg) :
    List (usb2phy_reg × Bool) :=
  [(phy_cfg.clkout_ctl, false)]

/-- Bitfield writes performed by `rockchip_usb2phy_power_on`. -/
def rockchip_usb2phy_power_on_writes
    (port_cfg : rockchip_usb2phy_port_cfg) : List (usb2phy_reg × Bool) :=
  [(port_cfg.phy_sus, false)]

/-- Bitfield writes performed by `rockchip_usb2phy_power_off`. -/
def rockchip_usb2phy_power_off_writes
    (port_cfg : rockchip_usb2phy_port_cfg) : List (usb2phy_reg × Bool) :=
  [(port_cfg.phy_sus, true)]

/-- The config-matching loop of `rockchip_usb2phy_probe`:
`index = 0; do { if (phy_cfgs[index].reg == reg) break; ++index; }
while (phy_cfgs[index].reg);` — the entry at the current index is tested
for a match before the zero-`reg` stop condition is evaluated on the
entry after it. -/
def find_cfg : List rockchip_usb2phy_cfg → Nat → Option rockchip_usb2phy_cfg
  | [], _ => none
  | c :: rest, reg =>
    if c.reg = reg then some c
    else
      match rest with
      | [] => none
      | c2 :: _ => if c2.reg = 0 then none else find_cfg rest reg

/-- Probe-time error outcomes distinguished by `rockchip_usb2phy_probe`. -/
inductive ProbeErr where
  | missingAddress
  | configNotFound
  deriving DecidableEq, Repr

/-- The `reg` address resolution in `rockchip_usb2phy_probe`: read
`reg[0]`; with 2-cell addressing and `reg[0] == 0`, fall back to
`reg[1]`, failing with `-EINVAL` (a missing-address error) when that
second cell cannot be read.  A failed read of `reg[0]` itself also fails
probe with the read's error. -/
def probe_reg_addr (address_cells : Nat) (reg0 reg1 : Option Nat) :
    Except ProbeErr Nat :=
  match reg0 with
  | none => .error .missingAddress
  | some r0 =>
    if address_cells = 2 ∧ r0 = 0 then
      match reg1 with
      | none => .error .missingAddress
      | some r1 => .ok r1
    else .ok r0

/-- `rockchip_usb2phy_probe` up to config selection: resolve the register
base address, then run the table-matching loop; a failed match leaves
`priv->phy_cfg` null and probe fails (`-EINVAL`, "failed find proper
phy-cfg"), so the device is not created. -/
def rockchip_usb2phy_probe_cfg (address_cells : Nat)
    (reg0 reg1 : Option Nat) (phy_cfgs : List rockchip_usb2phy_cfg) :
    Except ProbeErr rockchip_usb2phy_cfg :=
  match probe_reg_addr address_cells reg0 reg1 with
  | .error e => .error e
  | .ok r =>
    match find_cfg phy_cfgs r with
    | some c => .ok c
    | none => .error .configNotFound

/-- `rk3399_usb2phy_cfgs[0]` (register base `0xe450`). -/
def rk3399_cfg0 : rockchip_usb2phy_cfg :=
  { reg := 0xe450
    clkout_ctl := ⟨0xe450, 4, 4, 1, 0⟩
    port_otg :=
      { phy_sus := ⟨0xe454, 1, 0, 2, 1⟩
        bvalid_det_en := ⟨0xe3c0, 3, 3, 0, 1⟩
        bvalid_det_st := ⟨0xe3e0, 3, 3, 0, 1⟩
        bvalid_det_clr := ⟨0xe3d0, 3, 3, 0, 1⟩
        utmi_avalid := ⟨0xe2ac, 7, 7, 0, 1⟩
        utmi_bvalid := ⟨0xe2ac, 12, 12, 0, 1⟩ }
    port_host :=
      { phy_sus := ⟨0xe458, 1, 0, 0x2, 0x1⟩
        ls_det_en := ⟨0xe3c0, 6, 6, 0, 1⟩
        ls_det_st := ⟨0xe3e0, 6, 6, 0, 1⟩
        ls_det_clr := ⟨0xe3d0, 6, 6, 0, 1⟩
        utmi_ls := ⟨0xe2ac, 22, 21, 0, 1⟩
        utmi_hstdet := ⟨0xe2ac, 23, 23, 0, 1⟩ } }

/-- `rk3399_usb2phy_cfgs[1]` (register base `0xe460`). -/
def rk3399_cfg1 : rockchip_usb2phy_cfg :=
  { reg := 0xe460
    clkout_ctl := ⟨0xe460, 4, 4, 1, 0⟩
    port_otg :=
      { phy_sus := ⟨0xe464, 1, 0, 2, 1⟩
        bvalid_det_en := ⟨0xe3c0, 8, 8, 0, 1⟩
        bvalid_det_st := ⟨0xe3e0, 8, 8, 0, 1⟩
        bvalid_det_clr := ⟨0xe3d0, 8, 8, 0, 1⟩
        utmi_avalid := ⟨0xe2ac, 10, 10, 0, 1⟩
        utmi_bvalid := ⟨0xe2ac, 16, 16, 0, 1⟩ }
    port_host :=
      { phy_sus := ⟨0xe468, 1, 0, 0x2, 0x1⟩
        ls_det_en := ⟨0xe3c0, 11, 11, 0, 1⟩
        ls_det_st := ⟨0xe3e0, 11, 11, 0, 1⟩
        ls_det_clr := ⟨0xe3d0, 11, 11, 0, 1⟩
        utmi_ls := ⟨0xe2ac, 26, 25, 0, 1⟩
        utmi_hstdet := ⟨0xe2ac, 27, 27, 0, 1⟩ } }

/-- `rk3399_usb2phy_cfgs`, sentinel included. -/
def rk3399_usb2phy_cfgs : List rockchip_usb2phy_cfg :=
  [rk3399_cfg0, rk3399_cfg1, sentinel_cfg]

/-- `rk3568_phy_cfgs[0]` (register base `0xfe8a0000`). -/
def rk3568_cfg0 : rockchip_usb2phy_cfg :=
  { reg := 0xfe8a0000
    clkout_ctl := ⟨0x0008, 4, 4, 1, 0⟩
    port_otg :=
      { phy_sus := ⟨0x0000, 8, 0, 0x052, 0x1d1⟩
        bvalid_det_en := ⟨0x0080, 2, 2, 0, 1⟩
        bvalid_det_st := ⟨0x0084, 2, 2, 0, 1⟩
        bvalid_det_clr := ⟨0x0088, 2, 2, 0, 1⟩
        ls_det_en := ⟨0x0080, 0, 0, 0, 1⟩
        ls_det_st := ⟨0x0084, 0, 0, 0, 1⟩
        ls_det_clr := ⟨0x0088, 0, 0, 0, 1⟩
        utmi_avalid := ⟨0x00c0, 10, 10, 0, 1⟩
        utmi_bvalid := ⟨0x00c0, 9, 9, 0, 1⟩
        utmi_ls := ⟨0x00c0, 5, 4, 0, 1⟩ }
    port_host :=
      { phy_sus := ⟨0x0004, 8, 0, 0x1d2, 0x1d1⟩
        ls_det_en := ⟨0x0080, 1, 1, 0, 1⟩
        ls_det_st := ⟨0x0084, 1, 1, 0, 1⟩
        ls_det_clr := ⟨0x0088, 1, 1, 0, 1⟩
        utmi_ls := ⟨0x00c0, 17, 16, 0, 1⟩
        utmi_hstdet := ⟨0x00c0, 19, 19, 0, 1⟩ } }

/-- `rk3568_phy_cfgs[1]` (register base `0xfe8b0000`). -/
def rk3568_cfg1 : rockchip_usb2phy_cfg :=
  { reg := 0xfe8b0000
    clkout_ctl := ⟨0x0008, 4, 4, 1, 0⟩
    port_otg :=
      { phy_sus := ⟨0x0000, 8, 0, 0x1d2, 0x1d1⟩
        ls_det_en := ⟨0x0080, 0, 0, 0, 1⟩
        ls_det_st := ⟨0x0084, 0, 0, 0, 1⟩
        ls_det_clr := ⟨0x0088, 0, 0, 0, 1⟩
        utmi_ls := ⟨0x00c0, 5, 4, 0, 1⟩
        utmi_hstdet := ⟨0x00c0, 7, 7, 0, 1⟩ }
    port_host :=
      { phy_sus := ⟨0x0004, 8, 0, 0x1d2, 0x1d1⟩
        ls_det_en := ⟨0x0080, 1, 1, 0, 1⟩
        ls_det_st := ⟨0x0084, 1, 1, 0, 1⟩
        ls_det_clr := ⟨0x0088, 1, 1, 0, 1⟩
        utmi_ls := ⟨0x00c0, 17, 16, 0, 1⟩
        utmi_hstdet := ⟨0x00c0, 19, 19, 0, 1⟩ } }

/-- `rk3568_phy_cfgs`, sentinel included. -/
def rk3568_phy_cfgs : List rockchip_usb2phy_cfg :=
  [rk3568_cfg0, rk3568_cfg1, sentinel_cfg]

/-- `rk3588_phy_cfgs[0]` — note its register base is the literal 0. -/
def rk3588_cfg0 : rockchip_usb2phy_cfg :=
  { reg := 0x0000
    port_otg :=
      { phy_sus := ⟨0x000c, 11, 11, 0, 1⟩
        ls_det_en := ⟨0x0080, 0, 0, 0, 1⟩
        ls_det_st := ⟨0x0084, 0, 0, 0, 1⟩
        ls_det_clr := ⟨0x0088, 0, 0, 0, 1⟩
        utmi_ls := ⟨0x00c0, 10, 9, 0, 1⟩ } }

/-- `rk3588_phy_cfgs[1]` (register base `0x4000`). -/
def rk3588_cfg1 : rockchip_usb2phy_cfg :=
  { reg := 0x4000
    port_otg :=
      { phy_sus := ⟨0x000c, 11, 11, 0, 0⟩
        ls_det_en := ⟨0x0080, 0, 0, 0, 1⟩
        ls_det_st := ⟨0x0084, 0, 0, 0, 1⟩
        ls_det_clr := ⟨0x0088, 0, 0, 0, 1⟩
        utmi_ls := ⟨0x00c0, 10, 9, 0, 1⟩ } }

/-- `rk3588_phy_cfgs[2]` (register base `0x8000`). -/
def rk3588_cfg2 : rockchip_usb2phy_cfg :=
  { reg := 0x8000
    port_host :=
      { phy_sus := ⟨0x0008, 2, 2, 0, 1⟩
        ls_det_en := ⟨0x0080, 0, 0, 0, 1⟩
        ls_det_st := ⟨0x0084, 0, 0, 0, 1⟩
        ls_det_clr := ⟨0x0088, 0, 0, 0, 1⟩
        utmi_ls := ⟨0x00c0, 10, 9, 0, 1⟩ } }

/-- `rk3588_phy_cfgs[3]` (register base `0xc000`). -/
def rk3588_cfg3 : rockchip_usb2phy_cfg :=
  { reg := 0xc000
    port_host :=
      { phy_sus := ⟨0x0008, 2, 2, 0, 1⟩
        ls_det_en := ⟨0x0080, 0, 0, 0, 1⟩
        ls_det_st := ⟨0x0084, 0, 0, 0, 1⟩
        ls_det_clr := ⟨0x0088, 0, 0, 0, 1⟩
        utmi_ls := ⟨0x00c0, 10, 9, 0, 1⟩ } }

/-- `rk3588_phy_cfgs`, sentinel included. -/
def rk3588_phy_cfgs : List rockchip_usb2phy_cfg :=
  [rk3588_cfg0, rk3588_cfg1, rk3588_cfg2, rk3588_cfg3, sentinel_cfg]

/-- Any entry the probe matching loop returns has the requested `reg`. -/
theorem find_cfg_reg_eq (cfgs : List rockchip_usb2phy_cfg) (reg : Nat)
    (c : rockchip_usb2phy_cfg) (h : find_cfg cfgs reg = some c) :
    c.reg = reg := by
  induction cfgs with
  | nil => simp [find_cfg] at h
  | cons e rest ih =>
    by_cases he : e.reg = reg
    · simp [find_cfg, he] at h
      cases h
      exact he
    · cases rest with
      | nil => simp [find_cfg, he] at h
      | cons e2 rs =>
        by_cases h2 : e2.reg = 0
        · simp [find_cfg, he, h2] at h
        · simp [find_cfg, he, h2] at h
          exact ih h

/-- When the requested `reg` is 0 and the head entry has a nonzero `reg`,
the matching loop finds nothing: every later entry is either skipped as
unmatched or stops the scan as the sentinel. -/
theorem find_cfg_zero_of_head_ne (rest : List rockchip_usb2phy_cfg)
    (x : rockchip_usb2phy_cfg) (hx : x.reg ≠ 0) :
    find_cfg (x :: rest) 0 = none := by
  induction rest generalizing x with
  | nil => simp [find_cfg, hx]
  | cons e2 rs ih =>
    by_cases h2 : e2.reg = 0
    · simp [find_cfg, hx, h2]
    · simpa [find_cfg, hx, h2] using ih e2 h2

/-- Unfolding: the loop returns the head when it matches. -/
theorem find_cfg_cons_eq (c : rockchip_usb2phy_cfg)
    (rest : List rockchip_usb2phy_cfg) (reg : Nat) (h : c.reg = reg) :
    find_cfg (c :: rest) reg = some c := by
  simp [find_cfg, h]

/-- Unfolding: an unmatched head followed by a zero-`reg` entry stops the
loop with no match. -/
theorem find_cfg_cons_stop (c c2 : rockchip_usb2phy_cfg)
    (rest : List rockchip_usb2phy_cfg) (reg : Nat) (h : c.reg ≠ reg)
    (h2 : c2.reg = 0) : find_cfg (c :: c2 :: rest) reg = none := by
  simp [find_cfg, h, h2]

/-- Unfolding: an unmatched head followed by a nonzero-`reg` entry makes
the loop continue from that entry. -/
theorem find_cfg_cons_step (c c2 : rockchip_usb2phy_cfg)
    (rest : List rockchip_usb2phy_cfg) (reg : Nat) (h : c.reg ≠ reg)
    (h2 : c2.reg ≠ 0) :
    find_cfg (c :: c2 :: rest) reg = find_cfg (c2 :: rest) reg := by
  conv_lhs => rw [find_cfg]
  simp [h, h2]

/-- On a sentinel-terminated table whose entries past position 0 all have
a nonzero `reg`, the probe matching loop returns exactly the first entry
(in table order) whose `reg` equals the requested base. -/
theorem find_cfg_append_sentinel (entries : List rockchip_usb2phy_cfg)
    (reg : Nat) (hne : entries ≠ [])
    (hz : ∀ i, i < entries.length → 0 < i →
      (entries.getD i sentinel_cfg).reg ≠ 0) :
    find_cfg (entries ++ [sentinel_cfg]) reg =
      entries.find? (fun c => c.reg == reg) := by
  induction entries with
  | nil => exact absurd rfl hne
  | cons e0 rest ih =>
    by_cases he : e0.reg = reg
    · rw [List.cons_append, find_cfg_cons_eq _ _ _ he,
        List.find?_cons_of_pos _ (by simp [he])]
    · have hbool : (e0.reg == reg) = false := by simp [he]
      have hf : List.find? (fun c : rockchip_usb2phy_cfg => c.reg == reg)
          (e0 :: rest) = List.find? (fun c => c.reg == reg) rest := by
        simp [List.find?, hbool]
      rw [List.cons_append, hf]
      cases rest with
      | nil =>
        rw [show ([] : List rockchip_usb2phy_cfg) ++ [sentinel_cfg]
          = [sentinel_cfg] from rfl]
        rw [find_cfg_cons_stop _ _ _ _ he rfl]
        simp [List.find?]
      | cons e1 rs =>
        have h1 : e1.reg ≠ 0 := by
          have := hz 1 (by simp) (by omega)
          simpa using this
        have hz2 : ∀ i, i < (e1 :: rs).length → 0 < i →
            ((e1 :: rs).getD i sentinel_cfg).reg ≠ 0 := by
          intro i hi hpos
          have := hz (i + 1) (by simpa using Nat.succ_lt_succ hi) (by omega)
          simpa using this
        rw [List.cons_append, find_cfg_cons_step _ _ _ _ he h1,
          ← List.cons_append, ih (by simp) hz2]

/-- C3: on every well-formed ChipConfigTable (a nonempty entry list whose
entries past position 0 have nonzero base ids, terminated by the all-zero
sentinel), the probe lookup returns the first entry in table order whose
`reg` equals the requested register base, and when no entry matches,
probe fails with a config-not-found error so the device is not created.
Determinism is immediate: the lookup is a pure function of its inputs. -/
theorem C3_resolve_first_match (entries : List rockchip_usb2phy_cfg)
    (reg : Nat) (hne : entries ≠ [])
    (hz : ∀ i, i < entries.length → 0 < i →
      (entries.getD i sentinel_cfg).reg ≠ 0) :
    find_cfg (entries ++ [sentinel_cfg]) reg =
      entries.find? (fun c => c.reg == reg) ∧
    (entries.find? (fun c => c.reg == reg) = none →
      rockchip_usb2phy_probe_cfg 1 (some reg) none (entries ++ [sentinel_cfg])
        = .error .configNotFound) := by
  have h := find_cfg_append_sentinel entries reg hne hz
  refine ⟨h, fun hnone => ?_⟩
  simp [rockchip_usb2phy_probe_cfg, probe_reg_addr, h, hnone]

/-- C3 witness: the rk3568 table at register base `0xfe8a0000`. -/
theorem C3_resolve_first_match_witness :
    (([rk3568_cfg0, rk3568_cfg1] : List rockchip_usb2phy_cfg) ≠ []) ∧
    find_cfg ([rk3568_cfg0, rk3568_cfg1] ++ [sentinel_cfg]) 0xfe8a0000 =
      [rk3568_cfg0, rk3568_cfg1].find? (fun c => c.reg == 0xfe8a0000) :=
  ⟨by decide,
   (C3_resolve_first_match [rk3568_cfg0, rk3568_cfg1] 0xfe8a0000
     (by decide) (by decide)).1⟩

/-- C4 counterexample: the rk3588 table's first entry has the literal
base id 0, and the probe lookup does return it when the requested
register base is 0 — the entry at the current index is matched before
the zero stop condition is evaluated, so base id 0 is not always an
end-of-table sentinel. -/
theorem C4_counterexample :
    find_cfg rk3588_phy_cfgs 0 = some rk3588_cfg0 ∧ rk3588_cfg0.reg = 0 := by
  decide

/-- C4 (amended): a zero-`reg` entry at any position other than 0 is
never returned by the probe lookup — whenever the lookup returns an
entry whose `reg` is 0, the requested base was 0 and that entry is the
head of the table. -/
theorem C4_zero_entry_only_at_head (cfgs : List rockchip_usb2phy_cfg)
    (reg : Nat) (c : rockchip_usb2phy_cfg) (hf : find_cfg cfgs reg = some c)
    (h0 : c.reg = 0) : reg = 0 ∧ cfgs.head? = some c := by
  have hr := find_cfg_reg_eq cfgs reg c hf
  have hreg : reg = 0 := by rw [h0] at hr; exact hr.symm
  subst hreg
  refine ⟨rfl, ?_⟩
  cases cfgs with
  | nil => simp [find_cfg] at hf
  | cons e rest =>
    by_cases he : e.reg = 0
    · rw [find_cfg_cons_eq _ _ _ he] at hf
      cases hf
      rfl
    · rw [find_cfg_zero_of_head_ne rest e he] at hf
      cases hf

/-- C4 amended-claim witness: the rk3588 table requested at base 0. -/
theorem C4_zero_entry_only_at_head_witness :
    (0 : Nat) = 0 ∧ rk3588_phy_cfgs.head? = some rk3588_cfg0 :=
  C4_zero_entry_only_at_head rk3588_phy_cfgs 0 rk3588_cfg0
    (by decide) (by decide)

/-- C6: `init` succeeds (returns 0) exactly when `clk_enable` returned 0
or `-ENOSYS` — a "not supported" clock backend is treated as success —
and whenever `init` fails it has performed no detect-register writes, so
the register state is unchanged on error. -/
theorem C6_init_error_exactly_clk (r : Int) (id : Nat)
    (p : rockchip_usb2phy_port_cfg) :
    ((rockchip_usb2phy_init r id p).1 = 0 ↔ (r = 0 ∨ r = -ENOSYS)) ∧
    ((rockchip_usb2phy_init r id p).1 ≠ 0 →
      (rockchip_usb2phy_init r id p).2 = []) := by
  unfold rockchip_usb2phy_init
  by_cases h : r ≠ 0 ∧ r ≠ -ENOSYS
  · rw [if_pos h]
    constructor
    · constructor
      · intro h0; exact absurd h0 h.1
      · intro h0; rcases h0 with h0 | h0
        · exact absurd h0 h.1
        · exact absurd h0 h.2
    · intro _; rfl
  · rw [if_neg h]
    have h' : r = 0 ∨ r = -ENOSYS := by tauto
    by_cases h1 : id = USB2PHY_PORT_OTG
    · simp [h1, h']
    · by_cases h2 : id = USB2PHY_PORT_HOST <;> simp [h1, h2, h']

/-- C6 witness: a genuine clock error (5) makes `init` fail with no
writes; the hypothesis of the second conjunct is discharged at that
input. -/
theorem C6_init_error_exactly_clk_witness :
    ((rockchip_usb2phy_init 5 USB2PHY_PORT_OTG zero_port_cfg).1 ≠ 0) ∧
    (rockchip_usb2phy_init 5 USB2PHY_PORT_OTG zero_port_cfg).2 = [] := by
  have h := C6_init_error_exactly_clk 5 USB2PHY_PORT_OTG zero_port_cfg
  have h1 : (rockchip_usb2phy_init 5 USB2PHY_PORT_OTG zero_port_cfg).1 ≠ 0 := by
    intro hc
    rcases h.1.mp hc with h' | h' <;> simp [ENOSYS] at h'
  exact ⟨h1, h.2 h1⟩

/-- C9: with 2-cell addressing and a zero first `reg` cell, probe
resolves the config using the second `reg` cell — the outcome equals
resolving that cell's value directly — and when the second cell cannot
be read, probe fails with a missing-address error (`-EINVAL`), so the
device is not created. -/
theorem C9_second_cell_fallback (v : Nat)
    (cfgs : List rockchip_usb2phy_cfg) :
    rockchip_usb2phy_probe_cfg 2 (some 0) (some v) cfgs =
      rockchip_usb2phy_probe_cfg 1 (some v) none cfgs ∧
    rockchip_usb2phy_probe_cfg 2 (some 0) none cfgs =
      .error .missingAddress ∧
    probe_reg_addr 2 (some 0) (some v) = .ok v := by
  refine ⟨?_, ?_, ?_⟩ <;>
    simp [rockchip_usb2phy_probe_cfg, probe_reg_addr]

/-- C10: the per-port operations `power_on`, `power_off`, `exit` and
`of_xlate` all return 0 for every input — `power_on`/`power_off` cannot
fail, `exit` discards the result of disabling the shared clock, and
`of_xlate` returns success even for an unrecognized name. -/
theorem C10_port_ops_return_zero (s : RegFile)
    (p : rockchip_usb2phy_port_cfg) (r : Int) (name : String) (id : Nat) :
    (rockchip_usb2phy_power_on s p).1 = 0 ∧
    (rockchip_usb2phy_power_off s p).1 = 0 ∧
    rockchip_usb2phy_exit r = 0 ∧
    (rockchip_usb2phy_of_xlate id name).1 = 0 := by
  refine ⟨rfl, rfl, rfl, ?_⟩
  by_cases h1 : strcasecmp_eq name "host-port" <;>
    by_cases h2 : strcasecmp_eq name "otg-port" <;>
      simp [rockchip_usb2phy_of_xlate, h1, h2]

/-- C7: `of_xlate` maps the device name case-insensitively — any name
lowercasing to `"host-port"` yields the HOST port id and any name
lowercasing to `"otg-port"` yields the OTG port id, each with success
and no error log; any other name takes the logged error branch, leaves
`phy->id` at its prior (zero-initialized default) value, and still
succeeds. -/
theorem C7_of_xlate_case_insensitive (name : String) (id : Nat) :
    (name.data.map tolower = "host-port".data →
      rockchip_usb2phy_of_xlate id name = (0, USB2PHY_PORT_HOST, false)) ∧
    (name.data.map tolower = "otg-port".data →
      rockchip_usb2phy_of_xlate id name = (0, USB2PHY_PORT_OTG, false)) ∧
    (name.data.map tolower ≠ "host-port".data →
      name.data.map tolower ≠ "otg-port".data →
      rockchip_usb2phy_of_xlate id name = (0, id, true)) := by
  have hh : "host-port".data.map tolower = "host-port".data := by decide
  have ho : "otg-port".data.map tolower = "otg-port".data := by decide
  refine ⟨?_, ?_, ?_⟩
  · intro h
    have hb : strcasecmp_eq name "host-port" = true := by
      unfold strcasecmp_eq
      rw [hh, h]
      exact beq_self_eq_true _
    simp [rockchip_usb2phy_of_xlate, hb]
  · intro h
    have hb1 : strcasecmp_eq name "host-port" = false := by
      unfold strcasecmp_eq
      rw [hh, h]
      decide
    have hb2 : strcasecmp_eq name "otg-port" = true := by
      unfold strcasecmp_eq
      rw [ho, h]
      exact beq_self_eq_true _
    simp [rockchip_usb2phy_of_xlate, hb1, hb2]
  · intro h1 h2
    have hb1 : strcasecmp_eq name "host-port" = false := by
      unfold strcasecmp_eq
      rw [hh]
      exact beq_eq_false_iff_ne.mpr h1
    have hb2 : strcasecmp_eq name "otg-port" = false := by
      unfold strcasecmp_eq
      rw [ho]
      exact beq_eq_false_iff_ne.mpr h2
    simp [rockchip_usb2phy_of_xlate, hb1, hb2]

/-- C7 witness: an upper-case variant resolves to HOST, and an
unrecognized name keeps the prior id while still logging. -/
theorem C7_of_xlate_case_insensitive_witness :
    rockchip_usb2phy_of_xlate 0 "HOST-PORT" = (0, USB2PHY_PORT_HOST, false) ∧
    rockchip_usb2phy_of_xlate 7 "weird" = (0, 7, true) :=
  ⟨(C7_of_xlate_case_insensitive "HOST-PORT" 0).1 (by decide),
   (C7_of_xlate_case_insensitive "weird" 7).2.2 (by decide) (by decide)⟩

/-- C5 counterexample: on the rk3568 HOST port, whose config leaves
`bvalid_det_clr` and `bvalid_det_en` unset (all-zero, "absent"), `init`
nevertheless performs bitfield writes on those absent fields — the OTG
and HOST branches run the identical two `property_enable` calls with no
guard on field presence. -/
theorem C5_counterexample :
    (rockchip_usb2phy_init 0 USB2PHY_PORT_HOST rk3568_cfg0.port_host).2 =
      [(zero_reg, true), (zero_reg, true)] ∧
    zero_reg.offset = 0 ∧ zero_reg.bitend = 0 ∧ zero_reg.bitstart = 0 := by
  decide

/-- C5 (amended): the operations touch only the named bitfields of the
selected config — `power_on`/`power_off` only `phy_sus`, the clock
operations only `clkout_ctl`, and `init` (after a successful or
"not supported" clock enable) exactly `bvalid_det_clr` then
`bvalid_det_en` for either port kind — but `init` applies no presence
guard, so those two fields are written even when they are absent
(all-zero) in the selected config. -/
theorem C5_access_footprint (p : rockchip_usb2phy_port_cfg)
    (c : rockchip_usb2phy_cfg) (s : RegFile) :
    (rockchip_usb2phy_init 0 USB2PHY_PORT_OTG p).2 =
      [(p.bvalid_det_clr, true), (p.bvalid_det_en, true)] ∧
    (rockchip_usb2phy_init 0 USB2PHY_PORT_HOST p).2 =
      [(p.bvalid_det_clr, true), (p.bvalid_det_en, true)] ∧
    rockchip_usb2phy_power_on_writes p = [(p.phy_sus, false)] ∧
    rockchip_usb2phy_power_off_writes p = [(p.phy_sus, true)] ∧
    rockchip_usb2phy_clk_disable_writes c = [(c.clkout_ctl, false)] ∧
    (rockchip_usb2phy_clk_enable_writes s c = [] ∨
      rockchip_usb2phy_clk_enable_writes s c = [(c.clkout_ctl, true)]) := by
  refine ⟨rfl, by simp [rockchip_usb2phy_init, USB2PHY_PORT_HOST,
    USB2PHY_PORT_OTG, ENOSYS], rfl, rfl, rfl, ?_⟩
  unfold rockchip_usb2phy_clk_enable_writes
  by_cases h : property_enabled s c.clkout_ctl
  · exact Or.inl (by simp [h])
  · exact Or.inr (by simp [h])

/-- A value below `2 ^ n` has no set bit at or above position `n`. -/
theorem testBit_ge_of_lt (t n i : Nat) (ht : t < 2 ^ n) (hi : n ≤ i) :
    t.testBit i = false :=
  Nat.testBit_lt_two_pow
    (lt_of_lt_of_le ht (Nat.pow_le_pow_right (by norm_num) hi))

/-- For `l ≤ h ≤ 31`, `GENMASK(h, l)` truncated to 32 bits is the block
of ones from bit `l` through bit `h`. -/
theorem genmask_eq (h l : Nat) (hlh : l ≤ h) (hh : h ≤ 31) :
    GENMASK h l % 2 ^ 32 = (2 ^ (h - l + 1) - 1) <<< l := by
  apply Nat.eq_of_testBit_eq
  intro i
  simp only [GENMASK, Nat.testBit_mod_two_pow, Nat.testBit_land,
    Nat.testBit_shiftLeft, Nat.testBit_shiftRight,
    Nat.testBit_two_pow_sub_one, ge_iff_le, ← Bool.decide_and]
  rw [decide_eq_decide]
  omega

/-- Bit-level behaviour of a `property_enable`-shaped store through the
GRF write-enable convention: inside `[l, h]` the register takes the bits
of the chosen encoding `t`; every other bit of the 32-bit register keeps
its old value (and bits at or above 32 do not exist). -/
theorem writel_grf_store_testBit (old t l h j : Nat)
    (hlh : l ≤ h) (hh : h < 16) (ht : t < 2 ^ (h - l + 1)) :
    (writel_grf old
        ((t <<< l) ||| (((2 ^ (h - l + 1) - 1) <<< l) <<< 16))).testBit j =
      if l ≤ j ∧ j ≤ h then t.testBit (j - l)
      else (old.testBit j && decide (j < 32)) := by
  have e1 : t.testBit (16 + j - l) = false :=
    testBit_ge_of_lt _ (h - l + 1) _ ht (by omega)
  unfold writel_grf
  simp only [Nat.testBit_lor, Nat.testBit_land, Nat.testBit_xor,
    Nat.testBit_shiftRight, Nat.testBit_shiftLeft,
    Nat.testBit_two_pow_sub_one, ge_iff_le, e1]
  by_cases hj : l ≤ j ∧ j ≤ h
  · rw [if_pos hj]
    have d1 : decide (l ≤ 16 + j) = true := by
      rw [decide_eq_true_eq]; omega
    have d2 : decide (16 ≤ 16 + j) = true := by
      rw [decide_eq_true_eq]; omega
    have d3 : decide (l ≤ 16 + j - 16) = true := by
      rw [decide_eq_true_eq]; omega
    have d4 : decide (16 + j - 16 - l < h - l + 1) = true := by
      rw [decide_eq_true_eq]; omega
    have d5 : decide (j < 16) = true := by
      rw [decide_eq_true_eq]; omega
    have d6 : decide (j < 32) = true := by
      rw [decide_eq_true_eq]; omega
    have d7 : decide (16 ≤ j) = false := by
      rw [decide_eq_false_iff_not]; omega
    have d8 : decide (l ≤ j) = true := by
      rw [decide_eq_true_eq]; omega
    have d9 : decide (j - l < h - l + 1) = true := by
      rw [decide_eq_true_eq]; omega
    simp [d1, d2, d3, d4, d5, d6, d7, d8, d9]
  · rw [if_neg hj]
    by_cases hj16 : j < 16
    · have d1 : decide (l ≤ 16 + j) = true := by
        rw [decide_eq_true_eq]; omega
      have d2 : decide (16 ≤ 16 + j) = true := by
        rw [decide_eq_true_eq]; omega
      have d5 : decide (j < 16) = true := by
        rw [decide_eq_true_eq]; omega
      have d6 : decide (j < 32) = true := by
        rw [decide_eq_true_eq]; omega
      have d7 : decide (16 ≤ j) = false := by
        rw [decide_eq_false_iff_not]; omega
      by_cases hl : l ≤ j
      · have d8 : decide (l ≤ j) = true := by
          rw [decide_eq_true_eq]; omega
        have d9 : decide (j - l < h - l + 1) = false := by
          rw [decide_eq_false_iff_not]; omega
        simp [d1, d2, d5, d6, d7, d8, d9]
      · have d8 : decide (l ≤ j) = false := by
          rw [decide_eq_false_iff_not]; omega
        simp [d1, d2, d5, d6, d7, d8]
    · have d5 : decide (j < 16) = false := by
        rw [decide_eq_false_iff_not]; omega
      simp [d5]

/-- For an in-range field (`bitstart ≤ bitend < 16`) and an encoding that
fits, the stored word of `property_enable` needs no 32-bit truncation. -/
theorem property_enable_val_eq (f : usb2phy_reg) (en : Bool)
    (hlh : f.bitstart ≤ f.bitend) (hh : f.bitend < 16)
    (ht : (if en then f.enable else f.disable) <
      2 ^ (f.bitend - f.bitstart + 1)) :
    property_enable_val f en =
      ((if en then f.enable else f.disable) <<< f.bitstart) |||
        (((2 ^ (f.bitend - f.bitstart + 1) - 1) <<< f.bitstart) <<< 16) := by
  unfold property_enable_val
  rw [genmask_eq f.bitend f.bitstart hlh (by omega)]
  have hb1 : (if en then f.enable else f.disable) <<< f.bitstart < 2 ^ 32 := by
    rw [Nat.shiftLeft_eq]
    calc (if en then f.enable else f.disable) * 2 ^ f.bitstart
        < 2 ^ (f.bitend - f.bitstart + 1) * 2 ^ f.bitstart :=
          (Nat.mul_lt_mul_right
            (Nat.pos_pow_of_pos f.bitstart (by norm_num))).mpr ht
      _ = 2 ^ (f.bitend - f.bitstart + 1 + f.bitstart) :=
          (pow_add 2 _ f.bitstart).symm
      _ ≤ 2 ^ 32 := Nat.pow_le_pow_right (by norm_num) (by omega)
  have hb2 : ((2 ^ (f.bitend - f.bitstart + 1) - 1) <<< f.bitstart) <<< 16
      < 2 ^ 32 := by
    rw [Nat.shiftLeft_eq, Nat.shiftLeft_eq]
    have hm : (2 ^ (f.bitend - f.bitstart + 1) - 1) * 2 ^ f.bitstart
        < 2 ^ 16 := by
      calc (2 ^ (f.bitend - f.bitstart + 1) - 1) * 2 ^ f.bitstart
          < 2 ^ (f.bitend - f.bitstart + 1) * 2 ^ f.bitstart :=
            (Nat.mul_lt_mul_right
              (Nat.pos_pow_of_pos f.bitstart (by norm_num))).mpr
              (Nat.sub_lt (Nat.pos_pow_of_pos _ (by norm_num)) (by norm_num))
        _ = 2 ^ (f.bitend - f.bitstart + 1 + f.bitstart) :=
            (pow_add 2 _ f.bitstart).symm
        _ ≤ 2 ^ 16 := Nat.pow_le_pow_right (by norm_num) (by omega)
    calc (2 ^ (f.bitend - f.bitstart + 1) - 1) * 2 ^ f.bitstart * 2 ^ 16
        < 2 ^ 16 * 2 ^ 16 :=
          (Nat.mul_lt_mul_right (by norm_num)).mpr hm
      _ = 2 ^ 32 := by norm_num
  rw [Nat.mod_eq_of_lt hb1, Nat.mod_eq_of_lt hb2]

/-- Bits of the register at the field's offset after `property_enable`:
inside the field's range the chosen encoding, elsewhere the old 32-bit
contents. -/
theorem property_enable_testBit (s : RegFile) (f : usb2phy_reg) (en : Bool)
    (j : Nat) (hlh : f.bitstart ≤ f.bitend) (hh : f.bitend < 16)
    (ht : (if en then f.enable else f.disable) <
      2 ^ (f.bitend - f.bitstart + 1)) :
    ((property_enable s f en) f.offset).testBit j =
      if f.bitstart ≤ j ∧ j ≤ f.bitend
      then (if en then f.enable else f.disable).testBit (j - f.bitstart)
      else ((s f.offset).testBit j && decide (j < 32)) := by
  have hoff : (property_enable s f en) f.offset =
      writel_grf (s f.offset) (property_enable_val f en) := by
    simp [property_enable]
  rw [hoff, property_enable_val_eq f en hlh hh ht]
  exact writel_grf_store_testBit (s f.offset) _ _ _ j hlh hh ht

/-- The field value read back right after `property_enable` is exactly
the encoding that was written. -/
theorem field_value_property_enable (s : RegFile) (f : usb2phy_reg)
    (en : Bool) (hlh : f.bitstart ≤ f.bitend) (hh : f.bitend < 16)
    (ht : (if en then f.enable else f.disable) <
      2 ^ (f.bitend - f.bitstart + 1)) :
    field_value (property_enable s f en) f =
      (if en then f.enable else f.disable) := by
  unfold field_value
  rw [genmask_eq f.bitend f.bitstart hlh (by omega)]
  apply Nat.eq_of_testBit_eq
  intro i
  simp only [Nat.testBit_shiftRight, Nat.testBit_land,
    Nat.testBit_shiftLeft, Nat.testBit_two_pow_sub_one, ge_iff_le]
  rw [property_enable_testBit s f en (f.bitstart + i) hlh hh ht]
  by_cases hi : i ≤ f.bitend - f.bitstart
  · rw [if_pos (by omega)]
    have d1 : decide (f.bitstart ≤ f.bitstart + i) = true := by
      rw [decide_eq_true_eq]; omega
    have d2 : decide (f.bitstart + i - f.bitstart <
        f.bitend - f.bitstart + 1) = true := by
      rw [decide_eq_true_eq]; omega
    have e : f.bitstart + i - f.bitstart = i := by omega
    rw [e] at d2 ⊢
    simp [d1, d2]
  · rw [if_neg (by omega)]
    have d2 : decide (f.bitstart + i - f.bitstart <
        f.bitend - f.bitstart + 1) = false := by
      rw [decide_eq_false_iff_not]; omega
    have e : f.bitstart + i - f.bitstart = i := by omega
    rw [e] at d2
    have et : (if en then f.enable else f.disable).testBit i = false :=
      testBit_ge_of_lt _ (f.bitend - f.bitstart + 1) _ ht (by omega)
    simp [d2, e, et]

/-- C1 counterexample: the rk3399 host-port `utmi_ls` field occupies bits
21..22 — its encodings differ and fit in 2 bits — yet writing it and
reading it back does not return the written value: the shifted mask falls
outside the 32-bit word (`mask << 16` truncates to 0), so under the
write-enable-mask semantics the store changes nothing in the field. -/
theorem C1_counterexample :
    (rk3399_cfg0.port_host.utmi_ls.bitstart ≤
      rk3399_cfg0.port_host.utmi_ls.bitend ∧
     rk3399_cfg0.port_host.utmi_ls.disable ≠
      rk3399_cfg0.port_host.utmi_ls.enable ∧
     rk3399_cfg0.port_host.utmi_ls.disable <
      2 ^ (rk3399_cfg0.port_host.utmi_ls.bitend -
        rk3399_cfg0.port_host.utmi_ls.bitstart + 1) ∧
     rk3399_cfg0.port_host.utmi_ls.enable <
      2 ^ (rk3399_cfg0.port_host.utmi_ls.bitend -
        rk3399_cfg0.port_host.utmi_ls.bitstart + 1)) ∧
    property_enabled
      (property_enable zeroRegs rk3399_cfg0.port_host.utmi_ls true)
      rk3399_cfg0.port_host.utmi_ls = false := by
  decide

/-- C1 (amended): for a field lying in the writable low half
(`bitstart ≤ bitend ≤ 15`) whose two encodings fit in the field width and
differ, `property_enable` followed by `property_enabled` on the same
register state returns the written boolean, under the write-enable-mask
register semantics. -/
theorem C1_write_read_roundtrip (s : RegFile) (f : usb2phy_reg) (en : Bool)
    (hlh : f.bitstart ≤ f.bitend) (hh : f.bitend < 16)
    (hd : f.disable < 2 ^ (f.bitend - f.bitstart + 1))
    (he : f.enable < 2 ^ (f.bitend - f.bitstart + 1))
    (hne : f.disable ≠ f.enable) :
    property_enabled (property_enable s f en) f = en := by
  have hv : property_enabled (property_enable s f en) f =
      decide (field_value (property_enable s f en) f ≠ f.disable) := rfl
  rw [hv, field_value_property_enable s f en hlh hh
    (by cases en <;> simpa)]
  cases en
  · simp
  · simp [Ne.symm hne]

/-- C1 witness: the rk3568 OTG suspend field (bits 0..8, encodings 0x052
and 0x1d1) on the all-zero register block. -/
theorem C1_write_read_roundtrip_witness :
    (rk3568_cfg0.port_otg.phy_sus.bitstart ≤
      rk3568_cfg0.port_otg.phy_sus.bitend ∧
     rk3568_cfg0.port_otg.phy_sus.bitend < 16 ∧
     rk3568_cfg0.port_otg.phy_sus.disable <
      2 ^ (rk3568_cfg0.port_otg.phy_sus.bitend -
        rk3568_cfg0.port_otg.phy_sus.bitstart + 1) ∧
     rk3568_cfg0.port_otg.phy_sus.enable <
      2 ^ (rk3568_cfg0.port_otg.phy_sus.bitend -
        rk3568_cfg0.port_otg.phy_sus.bitstart + 1) ∧
     rk3568_cfg0.port_otg.phy_sus.disable ≠
      rk3568_cfg0.port_otg.phy_sus.enable) ∧
    property_enabled
      (property_enable zeroRegs rk3568_cfg0.port_otg.phy_sus true)
      rk3568_cfg0.port_otg.phy_sus = true :=
  ⟨by decide,
   C1_write_read_roundtrip zeroRegs rk3568_cfg0.port_otg.phy_sus true
     (by decide) (by decide) (by decide) (by decide) (by decide)⟩

/-- A register block with bit 5 set at offset `0xe2ac`, used to exhibit
the C2 frame violation. -/
def c2_state : RegFile := fun o => if o = 0xe2ac then 32 else 0

/-- C2 counterexample: writing the rk3399 host-port `utmi_ls` field (bits
21..22) clears bit 5 of the target register — a bit outside
`[bitstart, bitend]` — because the out-of-range mask truncates to a stray
write-enable for bit 5.  So without restricting fields to the writable
low half, bits outside the field can be perturbed. -/
theorem C2_counterexample :
    (5 < rk3399_cfg0.port_host.utmi_ls.bitstart) ∧
    (c2_state 0xe2ac).testBit 5 = true ∧
    ((property_enable c2_state rk3399_cfg0.port_host.utmi_ls true)
      0xe2ac).testBit 5 = false := by
  decide

/-- C2 (amended): for a field lying in the writable low half whose
encodings fit its width, `property_enable` changes no bit outside
`[bitstart, bitend]` of the 32-bit target register, and no bit of any
other register, whatever the prior 32-bit contents. -/
theorem C2_frame (s : RegFile) (f : usb2phy_reg) (en : Bool) (o i : Nat)
    (hlh : f.bitstart ≤ f.bitend) (hh : f.bitend < 16)
    (hd : f.disable < 2 ^ (f.bitend - f.bitstart + 1))
    (he : f.enable < 2 ^ (f.bitend - f.bitstart + 1))
    (hs : s f.offset < 2 ^ 32)
    (hout : o ≠ f.offset ∨ i < f.bitstart ∨ f.bitend < i) :
    ((property_enable s f en) o).testBit i = (s o).testBit i := by
  by_cases ho : o = f.offset
  · subst ho
    have hi : i < f.bitstart ∨ f.bitend < i := by tauto
    rw [property_enable_testBit s f en i hlh hh (by cases en <;> simpa),
      if_neg (by omega)]
    by_cases hi32 : i < 32
    · simp [hi32]
    · have hz : (s f.offset).testBit i = false :=
        testBit_ge_of_lt _ 32 _ hs (by omega)
      simp [hz]
  · simp [property_enable, ho]

/-- C2 witness: the rk3568 OTG suspend field on the all-zero block, bit 9
(just above the field) of the field's own register. -/
theorem C2_frame_witness :
    (rk3568_cfg0.port_otg.phy_sus.bitstart ≤
      rk3568_cfg0.port_otg.phy_sus.bitend ∧
     rk3568_cfg0.port_otg.phy_sus.bitend < 16 ∧
     rk3568_cfg0.port_otg.phy_sus.disable <
      2 ^ (rk3568_cfg0.port_otg.phy_sus.bitend -
        rk3568_cfg0.port_otg.phy_sus.bitstart + 1) ∧
     rk3568_cfg0.port_otg.phy_sus.enable <
      2 ^ (rk3568_cfg0.port_otg.phy_sus.bitend -
        rk3568_cfg0.port_otg.phy_sus.bitstart + 1) ∧
     zeroRegs rk3568_cfg0.port_otg.phy_sus.offset < 2 ^ 32 ∧
     rk3568_cfg0.port_otg.phy_sus.bitend < 9) ∧
    ((property_enable zeroRegs rk3568_cfg0.port_otg.phy_sus true)
      0).testBit 9 = (zeroRegs 0).testBit 9 :=
  ⟨by decide,
   C2_frame zeroRegs rk3568_cfg0.port_otg.phy_sus true 0 9
     (by decide) (by decide) (by decide) (by decide) (by decide)
     (by decide)⟩

/-- C8 counterexample: on the rk3568 OTG port, `power_on` then
`power_off` leaves the suspend field holding the field's enabled
encoding `0x1d1`, not the disabled encoding `0x052` — `power_off` writes
the enabled (suspend-asserted) encoding last. -/
theorem C8_counterexample :
    field_value
      ((rockchip_usb2phy_power_off
        ((rockchip_usb2phy_power_on zeroRegs rk3568_cfg0.port_otg).2)
        rk3568_cfg0.port_otg).2)
      rk3568_cfg0.port_otg.phy_sus = rk3568_cfg0.port_otg.phy_sus.enable ∧
    rk3568_cfg0.port_otg.phy_sus.enable = 0x1d1 ∧
    rk3568_cfg0.port_otg.phy_sus.disable = 0x052 ∧
    rk3568_cfg0.port_otg.phy_sus.enable ≠
      rk3568_cfg0.port_otg.phy_sus.disable := by
  decide

/-- C8 (amended): for every port whose suspend field lies in the writable
low half with a fitting enabled encoding, `power_on` immediately followed
by `power_off` leaves the suspend bitfield holding the field's enabled
encoding — the suspend-asserted (powered-off) state — regardless of the
starting register contents. -/
theorem C8_power_cycle_ends_suspended (s : RegFile)
    (p : rockchip_usb2phy_port_cfg)
    (hlh : p.phy_sus.bitstart ≤ p.phy_sus.bitend)
    (hh : p.phy_sus.bitend < 16)
    (he : p.phy_sus.enable <
      2 ^ (p.phy_sus.bitend - p.phy_sus.bitstart + 1)) :
    field_value
      ((rockchip_usb2phy_power_off
        ((rockchip_usb2phy_power_on s p).2) p).2) p.phy_sus =
      p.phy_sus.enable := by
  have h := field_value_property_enable
    ((rockchip_usb2phy_power_on s p).2) p.phy_sus true hlh hh (by simpa)
  simpa [rockchip_usb2phy_power_off] using h

/-- C8 amended-claim witness: the rk3568 OTG port from the all-zero
block. -/
theorem C8_power_cycle_ends_suspended_witness :
    (rk3568_cfg0.port_otg.phy_sus.bitstart ≤
      rk3568_cfg0.port_otg.phy_sus.bitend ∧
     rk3568_cfg0.port_otg.phy_sus.bitend < 16 ∧
     rk3568_cfg0.port_otg.phy_sus.enable <
      2 ^ (rk3568_cfg0.port_otg.phy_sus.bitend -
        rk3568_cfg0.port_otg.phy_sus.bitstart + 1)) ∧
    field_value
      ((rockchip_usb2phy_power_off
        ((rockchip_usb2phy_power_on zeroRegs rk3568_cfg0.port_otg).2)
        rk3568_cfg0.port_otg).2)
      rk3568_cfg0.port_otg.phy_sus = rk3568_cfg0.port_otg.phy_sus.enable :=
  ⟨by decide,
   C8_power_cycle_ends_suspended zeroRegs rk3568_cfg0.port_otg
     (by decide) (by decide) (by decide)⟩
